import Mathlib

/-!
Shallow embedding of the reverse-engineered DS3 access layer
(crates/darksouls3) for verification of its specification.

Machine integers (u8/u32/u64/usize) are embedded as Nat; 32-bit bitwise
operations are carried over literally (&&&, |||, >>>, <<<) and related to
arithmetic through explicit lemmas. Fallible or panicking operations return
Option. Foreign memory (streams, static pointer slots, param tables) is
passed explicitly as state.
-/

/-! ## Item identifier codec (src/crates/darksouls3/src/sprj/item.rs) -/

/-- All categories of items that are present in DS3, with their `u8`
discriminants (`ItemCategory` in item.rs). -/
inductive ItemCategory where
  | Weapon
  | Protector
  | Accessory
  | GemAsGoods
  | Goods
  | Gem
deriving DecidableEq, Repr

/-- The `u8` discriminant of an [ItemCategory] (`category as u8`). -/
def ItemCategory.toU8 : ItemCategory → Nat
  | .Weapon => 0
  | .Protector => 1
  | .Accessory => 2
  | .GemAsGoods => 3
  | .Goods => 4
  | .Gem => 8

/-- Embedding of `impl TryFrom<u8> for ItemCategory`. -/
def ItemCategory.tryFromU8 (value : Nat) : Option ItemCategory :=
  match value with
  | 0 => some .Weapon
  | 1 => some .Protector
  | 2 => some .Accessory
  | 3 => some .GemAsGoods
  | 4 => some .Goods
  | 8 => some .Gem
  | _ => none

/-- Embedding of `impl TryFrom<u32> for CategorizedItemID`: the raw `u32` is
accepted unchanged when `value >> 28`, seen as a `u8`, is a valid category
discriminant. A `CategorizedItemID` is embedded as its raw `u32` value. -/
def CategorizedItemID.tryFromU32 (value : Nat) : Option Nat :=
  if value >>> 28 < 256 then
    match ItemCategory.tryFromU8 (value >>> 28) with
    | some _ => some value
    | none => none
  else none

/-- Embedding of `CategorizedItemID::category`: matches `self.0 & 0xF0000000`
against the six category bit patterns; the `panic!` arm for an unknown
pattern is embedded as `none`. -/
def CategorizedItemID.category (v : Nat) : Option ItemCategory :=
  if v &&& 0xF0000000 = 0x00000000 then some .Weapon
  else if v &&& 0xF0000000 = 0x10000000 then some .Protector
  else if v &&& 0xF0000000 = 0x20000000 then some .Accessory
  else if v &&& 0xF0000000 = 0x30000000 then some .GemAsGoods
  else if v &&& 0xF0000000 = 0x40000000 then some .Goods
  else if v &&& 0xF0000000 = 0x80000000 then some .Gem
  else none

/-- Embedding of `CategorizedItemID::uncategorized`: `self.0 & 0x0FFFFFFF`. -/
def CategorizedItemID.uncategorized (v : Nat) : Nat :=
  v &&& 0x0FFFFFFF

/-- Embedding of `UncategorizedItemID::categorize`:
`self.0 | ((category as u32) << 28)`. -/
def UncategorizedItemID.categorize (v : Nat) (category : ItemCategory) : Nat :=
  v ||| category.toU8 <<< 28

/-- Embedding of `impl TryFrom<u32> for UncategorizedItemID`: accepted when
the four high bits are clear. -/
def UncategorizedItemID.tryFromU32 (uncategorized : Nat) : Option Nat :=
  if uncategorized &&& 0xF0000000 = 0 then some uncategorized else none

/-- The raw ID used by the game to indicate a "null" item ID
(`MaybeInvalidCategorizedItemID::INVALID`). -/
def MaybeInvalidCategorizedItemID.INVALID : Nat := 0xFFFFFFFF

/-- Embedding of `MaybeInvalidCategorizedItemID::is_valid`: matches
`self.0 & 0xF0000000` against the six valid category patterns. -/
def MaybeInvalidCategorizedItemID.is_valid (v : Nat) : Bool :=
  (v &&& 0xF0000000 == 0x00000000) || (v &&& 0xF0000000 == 0x10000000) ||
  (v &&& 0xF0000000 == 0x20000000) || (v &&& 0xF0000000 == 0x30000000) ||
  (v &&& 0xF0000000 == 0x40000000) || (v &&& 0xF0000000 == 0x80000000)

/-- Embedding of `impl From<u32> for MaybeInvalidCategorizedItemID`: keeps a
value that parses as a [CategorizedItemID] and normalizes anything else to
[MaybeInvalidCategorizedItemID.INVALID]. -/
def MaybeInvalidCategorizedItemID.fromU32 (value : Nat) : Nat :=
  match CategorizedItemID.tryFromU32 value with
  | some _ => value
  | none => MaybeInvalidCategorizedItemID.INVALID

/-- Embedding of `MaybeInvalidCategorizedItemID::as_valid`:
`CategorizedItemID::try_from(*self).ok()`. -/
def MaybeInvalidCategorizedItemID.as_valid (v : Nat) : Option Nat :=
  CategorizedItemID.tryFromU32 v

/-! ## FieldIns selector (src/crates/darksouls3/src/sprj/field_ins.rs) -/

/-- The type tag of a FieldIns selector, with its `u8` discriminants
(`FieldInsType` in field_ins.rs). -/
inductive FieldInsType where
  | Hit
  | Chr
  | Obj
  | Bullet
deriving DecidableEq, Repr

/-- The `u8` discriminant of a [FieldInsType] (`field_ins_type as u8`). -/
def FieldInsType.toU8 : FieldInsType → Nat
  | .Hit => 0
  | .Chr => 1
  | .Obj => 2
  | .Bullet => 3

/-- Modelled from the spec: the external `bitfield!` macro's getter for a
`w`-bit field of a `u32` at low bit `lo` reads
`(value >> lo) & ((1 << w) - 1)`. -/
def bitsGet (v lo w : Nat) : Nat :=
  v >>> lo &&& (1 <<< w - 1)

/-- Modelled from the spec: the external `bitfield!` macro's setter for a
`w`-bit field of a `u32` at low bit `lo` replaces bits `[lo, lo + w)` of the
value with the (truncated) new field contents. -/
def bitsSet (v lo w x : Nat) : Nat :=
  v % 2 ^ lo + x % 2 ^ w * 2 ^ lo + v >>> (lo + w) <<< (lo + w)

/-- Embedding of the `index` getter of `FieldInsSelector`: declared in
field_ins.rs as bits `19, 0`. -/
def FieldInsSelector.index (v : Nat) : Nat := bitsGet v 0 20

/-- Embedding of the `set_index` setter of `FieldInsSelector`: bits `19, 0`. -/
def FieldInsSelector.set_index (v x : Nat) : Nat := bitsSet v 0 20 x

/-- Embedding of the `container` getter of `FieldInsSelector`: declared in
field_ins.rs as bits `19, 0` (the same range as `index`). -/
def FieldInsSelector.container (v : Nat) : Nat := bitsGet v 0 20

/-- Embedding of the `set_container` setter of `FieldInsSelector`: bits
`27, 20`. -/
def FieldInsSelector.set_container (v x : Nat) : Nat := bitsSet v 20 8 x

/-- Embedding of the `type_raw` getter of `FieldInsSelector`: bits `31, 28`. -/
def FieldInsSelector.type_raw (v : Nat) : Nat := bitsGet v 28 4

/-- Embedding of the `set_type_raw` setter of `FieldInsSelector`: bits
`31, 28`. -/
def FieldInsSelector.set_type_raw (v x : Nat) : Nat := bitsSet v 28 4 x

/-- Embedding of `FieldInsSelector::new`: starts from zero and applies
`set_type_raw`, `set_container`, `set_index` in order. -/
def FieldInsSelector.new (field_ins_type : FieldInsType) (container index : Nat) : Nat :=
  FieldInsSelector.set_index
    (FieldInsSelector.set_container
      (FieldInsSelector.set_type_raw 0 field_ins_type.toU8) container) index

/-- Embedding of `FieldInsSelector::field_ins_type`: the unchecked transmute
of `type_raw` back to [FieldInsType]; an out-of-range tag is embedded as
`none`. -/
def FieldInsSelector.field_ins_type (v : Nat) : Option FieldInsType :=
  match FieldInsSelector.type_raw v with
  | 0 => some .Hit
  | 1 => some .Chr
  | 2 => some .Obj
  | 3 => some .Bullet
  | _ => none

/-! ## Inventory slot pool (src/crates/darksouls3/src/sprj/player_game_data.rs) -/

/-- Embedding of `EquipInventoryDataListEntry`: one slot of the normal/key
item arrays. `item_id` holds the raw `u32` of a
`MaybeInvalidCategorizedItemID`. -/
structure EquipInventoryDataListEntry where
  gaitem_handle : Nat
  item_id : Nat
  quantity : Nat
deriving DecidableEq, Repr

instance : Inhabited EquipInventoryDataListEntry := ⟨⟨0, 0, 0⟩⟩

/-- Embedding of `EquipInventoryDataListEntry::is_empty`:
`!self.item_id.is_valid()`. -/
def EquipInventoryDataListEntry.is_empty (e : EquipInventoryDataListEntry) : Bool :=
  !(MaybeInvalidCategorizedItemID.is_valid e.item_id)

/-- Embedding of `EquipInventoryDataListEntry::as_non_empty`: the entry
itself when non-empty (the Rust code transmutes to
`NonEmptyEquipInventoryDataListEntry`, which has an identical layout),
otherwise `None`. -/
def EquipInventoryDataListEntry.as_non_empty (e : EquipInventoryDataListEntry) :
    Option EquipInventoryDataListEntry :=
  if !e.is_empty then some e else none

/-- Embedding of `ItemsIterator::next`: pulls entries from the remaining
chained slot sequence until one is non-empty, and returns it together with
the rest of the sequence. -/
def ItemsIterator.next :
    List EquipInventoryDataListEntry →
    Option (EquipInventoryDataListEntry × List EquipInventoryDataListEntry)
  | [] => none
  | e :: rest =>
    match e.as_non_empty with
    | some entry => some (entry, rest)
    | none => ItemsIterator.next rest

/-- The full sequence of entries produced by repeatedly calling
[ItemsIterator.next], as a caller of the iterator observes it. -/
def ItemsIterator.toList (l : List EquipInventoryDataListEntry) :
    List EquipInventoryDataListEntry :=
  match h : ItemsIterator.next l with
  | none => []
  | some p => p.1 :: ItemsIterator.toList p.2
termination_by l.length
decreasing_by
  have aux : ∀ (l' : List EquipInventoryDataListEntry)
      (p' : EquipInventoryDataListEntry × List EquipInventoryDataListEntry),
      ItemsIterator.next l' = some p' → p'.2.length < l'.length := by
    intro l'
    induction l' with
    | nil => intro p' hp; simp [ItemsIterator.next] at hp
    | cons e rest ih =>
      intro p' hp
      rw [ItemsIterator.next] at hp
      cases he : e.as_non_empty with
      | some entry => rw [he] at hp; cases hp; simp
      | none => rw [he] at hp; exact Nat.lt_trans (ih p' hp) (by simp)
  exact aux l p h

/-- Embedding of `InventoryItemsData`: the two slot-pool arrays with their
capacities implied by the list lengths, plus the game-maintained
`normal_items_count` (which is stored separately from the arrays and not
derived from them). -/
structure InventoryItemsData where
  normal_items_count : Nat
  key_entries : List EquipInventoryDataListEntry
  normal_entries : List EquipInventoryDataListEntry

/-- Embedding of `InventoryItemsData::items`: iterates the chained key-item
and normal-item slot arrays, exposing only non-empty entries. -/
def InventoryItemsData.items (d : InventoryItemsData) :
    List EquipInventoryDataListEntry :=
  ItemsIterator.toList (d.key_entries ++ d.normal_entries)

/-- Embedding of `EquipInventoryData` (the fields the claims use). -/
structure EquipInventoryData where
  items_data : InventoryItemsData

/-- Embedding of `EquipGameData` (the fields the claims use). -/
structure EquipGameData where
  equip_inventory_data : EquipInventoryData

/-- Embedding of `EquipGameData::is_main_menu`:
`self.equip_inventory_data.items_data.normal_items_count == 12`. -/
def EquipGameData.is_main_menu (g : EquipGameData) : Bool :=
  g.equip_inventory_data.items_data.normal_items_count == 12

/-! ## Item buffer (src/crates/darksouls3/src/sprj/item.rs) -/

/-- Embedding of `ItemBufferEntry`. The `id` holds the raw `u32` of a
`CategorizedItemID`. -/
structure ItemBufferEntry where
  id : Nat
  quantity : Nat
  durability : Int
deriving DecidableEq, Repr

instance : Inhabited ItemBufferEntry := ⟨⟨0, 0, 0⟩⟩

/-- Embedding of `ItemBuffer`: the `length`-many entries of the buffer
(`length` itself is the list length). -/
structure ItemBuffer where
  items : List ItemBufferEntry
deriving DecidableEq, Repr

/-- The `length` field of an [ItemBuffer]. -/
def ItemBuffer.length (b : ItemBuffer) : Nat := b.items.length

/-- Embedding of `ItemBuffer::remove`: panics (embedded as `none`) when
`index >= len`; otherwise returns the entry at `index` and the buffer with
everything after `index` shifted one slot toward the front and the length
decremented. -/
def ItemBuffer.remove (b : ItemBuffer) (index : Nat) :
    Option (ItemBufferEntry × ItemBuffer) :=
  if index ≥ b.length then none
  else
    some (b.items.getD index default,
      ⟨b.items.take index ++ b.items.drop (index + 1)⟩)

/-! ## Singleton instance resolution (src/crates/darksouls3/src/sprj/game_data_man.rs,
field_area.rs) -/

/-- Modelled from the spec: the `InstanceError` enum of the shared crate's
`FromStatic` trait, whose definition is not under src (only its impls are).
`NotFound` is a failed address-table lookup / RVA translation; `Null` is a
null static pointer slot. -/
inductive InstanceError where
  | NotFound
  | Null
deriving DecidableEq, Repr

/-- Embedding of the `FromStatic::instance` impls for `GameDataMan`,
`FieldArea` and `MapItemMan`: `lookupVA` is the (memoized) result of the
address-table lookup plus `rva_to_va` translation for the singleton's name
(`none` when that failed), and `mem` is the current contents of foreign
memory, read afresh on every call: `mem va` is the pointer value stored in
the static slot at address `va`, with `0` the null pointer. -/
def fromStaticInstance (lookupVA : Option Nat) (mem : Nat → Nat) :
    Except InstanceError Nat :=
  match lookupVA with
  | none => .error .NotFound
  | some va =>
    if mem va = 0 then .error .Null else .ok (mem va)

/-! ## Parameter tables (src/crates/darksouls3/src/cs/regulation_manager.rs) -/

/-- Embedding of `ParamRowInfo`: one entry of a parameter table's row
directory. -/
structure ParamRowInfo where
  id : Nat
  offset : Nat
deriving DecidableEq, Repr

instance : Inhabited ParamRowInfo := ⟨⟨0, 0⟩⟩

/-- Embedding of `Parameter<T>`: the row directory (`ParamTable::row_info`)
plus the contents of foreign memory at each byte offset from the table's
base address (`rowAt o` is the row stored at `table_base + o`). -/
structure Parameter where
  row_info : List ParamRowInfo
  rowAt : Nat → Nat

/-- Embedding of Rust's `slice::binary_search_by_key` over the row directory,
searching for `key` among the row IDs in the half-open index interval
`[left, right)`. Returns the index of a matching entry (`Ok(mid)`), or
`none` for a miss (`Err(..)`, which `ptr_for_id` discards via `.ok()?`). -/
def binarySearchById (infos : List ParamRowInfo) (key left right : Nat) :
    Option Nat :=
  if h : left < right then
    if (infos.getD (left + (right - left) / 2) default).id < key then
      binarySearchById infos key (left + (right - left) / 2 + 1) right
    else if key < (infos.getD (left + (right - left) / 2) default).id then
      binarySearchById infos key left (left + (right - left) / 2)
    else some (left + (right - left) / 2)
  else none
termination_by right - left
decreasing_by
  all_goals omega

/-- Embedding of `Parameter::ptr_for_id`: binary search over the directory
by ID; a hit yields the byte offset `table_base + infos[index].offset`
points at (we keep the offset, resolving it through [Parameter.rowAt] in
[Parameter.get]). -/
def Parameter.ptr_for_id (p : Parameter) (id : Nat) : Option Nat :=
  (binarySearchById p.row_info id 0 p.row_info.length).map
    (fun index => (p.row_info.getD index default).offset)

/-- Embedding of `Parameter::get`: dereferences [Parameter.ptr_for_id]. -/
def Parameter.get (p : Parameter) (id : Nat) : Option Nat :=
  (p.ptr_for_id id).map p.rowAt

/-! ## Save-stream interception (src/crates/darksouls3/src/util/save.rs) -/

/-- The magic header string written into modified save data (`HEADER` in
save.rs). -/
def HEADER : String := "fromsoftware-rs"

/-- The bytes of [HEADER] (`HEADER.as_bytes()`), as they appear in the save
stream. -/
def headerBytes : List Nat := HEADER.data.map Char.toNat

/-- Modelled from the spec: the dlio crate's `DLMemoryInputStream` (not under
src) is a byte stream with a current read position. -/
structure DLMemoryInputStream where
  data : List Nat
  pos : Nat
deriving DecidableEq, Repr

/-- Modelled from the spec: `Read::read` on a `DLMemoryInputStream` fills the
buffer with up to `k` bytes from the current position, returning the bytes
actually read and advancing the position past them. -/
def DLMemoryInputStream.readBytes (s : DLMemoryInputStream) (k : Nat) :
    List Nat × DLMemoryInputStream :=
  let bytes := (s.data.drop s.pos).take k
  (bytes, ⟨s.data, s.pos + bytes.length⟩)

/-- Modelled from the spec: `de32` decodes a little-endian `u32` length
prefix. -/
def de32 (bs : List Nat) : Nat :=
  match bs with
  | [a, b, c, d] => a + 256 * b + 65536 * c + 16777216 * d
  | _ => 0

/-- Modelled from the spec: `le32` encodes a `u32` as four little-endian
bytes (the length prefix of a length-delimited block). -/
def le32 (n : Nat) : List Nat :=
  [n % 256, n / 256 % 256, n / 65536 % 256, n / 16777216 % 256]

/-- Modelled from the spec: `DLMemoryInputStream::read_delimited` (not under
src) reads a 4-byte `u32` length prefix and then that many payload bytes;
a stream too short for either read is a failure (`none`, which the hook
`.unwrap()`s). -/
def DLMemoryInputStream.read_delimited (s : DLMemoryInputStream) :
    Option (List Nat × DLMemoryInputStream) :=
  let r := s.readBytes 4
  if r.1.length = 4 then
    let n := de32 r.1
    let r2 := r.2.readBytes n
    if r2.1.length = n then some (r2.1, r2.2) else none
  else none

/-- An enum of different circumstances in which a save file can be loaded
(`OnLoadType` in save.rs). -/
inductive OnLoadType where
  | MainMenu
  | SavedData (data : List Nat)
  | NoSavedData
deriving DecidableEq, Repr

/-- The environment one invocation of the `on_load` hook closure runs in:
the `EquipGameData` (as the foreign deserializer leaves it), the input
stream, and the value the foreign deserializer will return (`0` is its
failure value). -/
structure LoadEnv where
  this : EquipGameData
  stream : DLMemoryInputStream
  nativeRet : Nat

/-- What one invocation of the `on_load` hook closure did: the `OnLoadType`
values delivered to the registered callback in order, the stream position at
which the foreign deserializer was invoked, and the hook's return value. -/
structure LoadOutcome where
  events : List OnLoadType
  posAtOriginal : Nat
  ret : Nat
deriving DecidableEq, Repr

/-- Embedding of the `on_load` hook closure in save.rs: reads the magic
header from the current position; on a match, reads the length-delimited
payload and delivers `SavedData` to the callback, then runs the foreign
deserializer on the remaining stream; on a mismatch, seeks back to the
position before the header read and runs the foreign deserializer there.
If the foreign deserializer returns 0 the hook returns 0; otherwise, when no
payload was read, it classifies the load as `MainMenu` or `NoSavedData` via
`EquipGameData::is_main_menu` and returns 1. A failed `.unwrap()` is
embedded as `none`. -/
def onLoadHook (env : LoadEnv) : Option LoadOutcome :=
  let before := env.stream.pos
  let r := env.stream.readBytes headerBytes.length
  let has_saved_data := r.1.length == headerBytes.length && r.1 == headerBytes
  if has_saved_data then
    match r.2.read_delimited with
    | none => none
    | some (payload, s2) =>
      if env.nativeRet = 0 then some ⟨[.SavedData payload], s2.pos, 0⟩
      else some ⟨[.SavedData payload], s2.pos, 1⟩
  else
    if env.nativeRet = 0 then some ⟨[], before, 0⟩
    else
      some ⟨[if env.this.is_main_menu then .MainMenu else .NoSavedData],
        before, 1⟩

/-- The environment one invocation of the `on_save` hook closure runs in:
the `EquipGameData`, the registered callback's result, the byte count the
foreign output stream reports for writing a length-delimited block of a
given payload length (`write_delimited`'s return value — the stream is a
foreign object, so this is an input of the model), and the bytes the foreign
serializer appends together with its return value. -/
structure SaveEnv where
  this : EquipGameData
  callbackResult : Option (List Nat)
  reportedWrite : Nat → Nat
  nativeBytes : List Nat
  nativeRet : Nat

/-- What one invocation of the `on_save` hook closure did: the bytes now in
the output stream, the hook's return value, and whether the foreign
serializer was invoked. -/
structure SaveOutcome where
  written : List Nat
  ret : Nat
  calledOriginal : Bool
deriving DecidableEq, Repr

/-- Embedding of the `on_save` hook closure in save.rs: for a
non-main-menu context whose callback returns a payload, writes the magic
header and then the length-delimited block (`write_delimited` appends a
4-byte length prefix and the payload); if the stream reports a byte count
other than `payload.len() + 4` the hook returns 1 immediately, otherwise it
invokes the foreign serializer and returns its value. In every other case it
just invokes the foreign serializer. -/
def onSaveHook (env : SaveEnv) : SaveOutcome :=
  match env.this.is_main_menu, env.callbackResult with
  | false, some result =>
    let afterBlock := headerBytes ++ le32 result.length ++ result
    if env.reportedWrite result.length ≠ result.length + 4 then
      ⟨afterBlock, 1, false⟩
    else
      ⟨afterBlock ++ env.nativeBytes, env.nativeRet, true⟩
  | _, _ => ⟨env.nativeBytes, env.nativeRet, true⟩

/-! ## Helper lemmas and claim theorems -/

/-- Masking a `u32` with `0xF0000000` keeps exactly the top nibble. -/
theorem land_top_nibble (v : Nat) (hv : v < 2 ^ 32) :
    v &&& 0xF0000000 = v / 2 ^ 28 * 2 ^ 28 := by
  have hmask : (0xF0000000 : Nat) = 15 <<< 28 := by decide
  have hrhs : v / 2 ^ 28 * 2 ^ 28 = v >>> 28 <<< 28 := by
    rw [Nat.shiftRight_eq_div_pow, Nat.shiftLeft_eq]
  rw [hmask, hrhs]
  apply Nat.eq_of_testBit_eq
  intro i
  rw [Nat.testBit_land, Nat.testBit_shiftLeft, Nat.testBit_shiftLeft,
    Nat.testBit_shiftRight]
  rcases Nat.lt_or_ge i 28 with h28 | h28
  · simp [Nat.not_le.mpr h28]
  · have hi : 28 + (i - 28) = i := by omega
    rcases Nat.lt_or_ge i 32 with h32 | h32
    · have h15 : Nat.testBit 15 (i - 28) = true := by
        have : (15 : Nat) = 2 ^ 4 - 1 := by decide
        rw [this, Nat.testBit_two_pow_sub_one]
        simp only [decide_eq_true_eq]
        omega
      simp [h28, h15, hi]
    · have hv' : v < 2 ^ i :=
        Nat.lt_of_lt_of_le hv (Nat.pow_le_pow_right (by norm_num) h32)
      have : Nat.testBit v i = false := Nat.testBit_lt_two_pow hv'
      simp [h28, hi, this]

/-- Masking a `u32` with `0x0FFFFFFF` is reduction modulo `2 ^ 28`. -/
theorem land_low_bits (v : Nat) : v &&& 0x0FFFFFFF = v % 2 ^ 28 := by
  have : (0x0FFFFFFF : Nat) = 2 ^ 28 - 1 := by decide
  rw [this, Nat.and_pow_two_sub_one_eq_mod]

/-- Bitwise or of a value below `2 ^ 28` with a left-shifted-by-28 value is
plain addition of disjoint bit ranges. -/
theorem lor_shift28 (c v : Nat) (hv : v < 2 ^ 28) :
    v ||| c <<< 28 = c * 2 ^ 28 + v := by
  rw [Nat.lor_comm, Nat.shiftLeft_eq]
  calc c * 2 ^ 28 ||| v = 2 ^ 28 * c ||| v := by rw [Nat.mul_comm]
    _ = 2 ^ 28 * c + v := (Nat.mul_add_lt_is_or hv c).symm
    _ = c * 2 ^ 28 + v := by rw [Nat.mul_comm]


theorem is_valid_iff_div (v : Nat) (hv : v < 2 ^ 32) :
    MaybeInvalidCategorizedItemID.is_valid v = true ↔
      v / 2 ^ 28 = 0 ∨ v / 2 ^ 28 = 1 ∨ v / 2 ^ 28 = 2 ∨ v / 2 ^ 28 = 3 ∨
      v / 2 ^ 28 = 4 ∨ v / 2 ^ 28 = 8 := by
  simp only [MaybeInvalidCategorizedItemID.is_valid, Bool.or_eq_true, beq_iff_eq,
    land_top_nibble v hv]
  omega

theorem tryFromU32_eq (v : Nat) (hv : v < 2 ^ 32) :
    CategorizedItemID.tryFromU32 v =
      if v / 2 ^ 28 = 0 ∨ v / 2 ^ 28 = 1 ∨ v / 2 ^ 28 = 2 ∨ v / 2 ^ 28 = 3 ∨
          v / 2 ^ 28 = 4 ∨ v / 2 ^ 28 = 8 then some v else none := by
  have h256 : v >>> 28 < 256 := by rw [Nat.shiftRight_eq_div_pow]; omega
  unfold CategorizedItemID.tryFromU32
  rw [if_pos h256, Nat.shiftRight_eq_div_pow]
  obtain ⟨k, hk⟩ : ∃ k, v / 2 ^ 28 = k := ⟨_, rfl⟩
  rw [hk]
  have hk16 : k < 16 := by omega
  interval_cases k <;> simp [ItemCategory.tryFromU8]

theorem fromU32_eq (v : Nat) (hv : v < 2 ^ 32) :
    MaybeInvalidCategorizedItemID.fromU32 v =
      if v / 2 ^ 28 = 0 ∨ v / 2 ^ 28 = 1 ∨ v / 2 ^ 28 = 2 ∨ v / 2 ^ 28 = 3 ∨
          v / 2 ^ 28 = 4 ∨ v / 2 ^ 28 = 8 then v
      else MaybeInvalidCategorizedItemID.INVALID := by
  unfold MaybeInvalidCategorizedItemID.fromU32
  rw [tryFromU32_eq v hv]
  split_ifs with h <;> rfl

/-- C5: converting any u32 to a MaybeInvalidCategorizedItemID yields a value
that is_valid exactly when the original top nibble is in {0,1,2,3,4,8}; any
other top nibble normalizes to the single INVALID sentinel, and as_valid on
the sentinel returns none. -/
theorem maybeInvalid_normalization (v : Nat) (hv : v < 2 ^ 32) :
    (MaybeInvalidCategorizedItemID.is_valid
        (MaybeInvalidCategorizedItemID.fromU32 v) = true ↔
      v >>> 28 = 0 ∨ v >>> 28 = 1 ∨ v >>> 28 = 2 ∨ v >>> 28 = 3 ∨
      v >>> 28 = 4 ∨ v >>> 28 = 8) ∧
    (¬(v >>> 28 = 0 ∨ v >>> 28 = 1 ∨ v >>> 28 = 2 ∨ v >>> 28 = 3 ∨
        v >>> 28 = 4 ∨ v >>> 28 = 8) →
      MaybeInvalidCategorizedItemID.fromU32 v =
        MaybeInvalidCategorizedItemID.INVALID) ∧
    MaybeInvalidCategorizedItemID.as_valid
      MaybeInvalidCategorizedItemID.INVALID = none := by
  rw [Nat.shiftRight_eq_div_pow, fromU32_eq v hv]
  by_cases hin : v / 2 ^ 28 = 0 ∨ v / 2 ^ 28 = 1 ∨ v / 2 ^ 28 = 2 ∨
      v / 2 ^ 28 = 3 ∨ v / 2 ^ 28 = 4 ∨ v / 2 ^ 28 = 8
  · rw [if_pos hin]
    refine ⟨?_, fun hno => absurd hin hno, by decide⟩
    exact is_valid_iff_div v hv
  · rw [if_neg hin]
    refine ⟨?_, fun _ => rfl, by decide⟩
    constructor
    · intro hval
      exact absurd hval (by decide)
    · intro h
      exact absurd h hin

/-- C6: embedding a category into an ordinal with clear high bits and
extracting it back is the identity in both directions. -/
theorem categorized_id_roundtrip :
    (∀ (c : ItemCategory) (o : Nat), o < 2 ^ 28 →
      CategorizedItemID.category (UncategorizedItemID.categorize o c) = some c ∧
      CategorizedItemID.uncategorized (UncategorizedItemID.categorize o c) = o) ∧
    (∀ (x : Nat) (c : ItemCategory), x < 2 ^ 32 →
      CategorizedItemID.category x = some c →
      UncategorizedItemID.categorize (CategorizedItemID.uncategorized x) c = x) := by
  constructor
  · intro c o ho
    have hval : UncategorizedItemID.categorize o c = c.toU8 * 2 ^ 28 + o :=
      lor_shift28 c.toU8 o ho
    have hlt : c.toU8 * 2 ^ 28 + o < 2 ^ 32 := by
      cases c <;> simp only [ItemCategory.toU8] <;> omega
    have hmask : (c.toU8 * 2 ^ 28 + o) &&& 0xF0000000 = c.toU8 * 2 ^ 28 := by
      rw [land_top_nibble _ hlt]
      congr 1
      omega
    constructor
    · rw [hval]
      unfold CategorizedItemID.category
      rw [hmask]
      cases c <;> simp [ItemCategory.toU8]
    · rw [hval]
      unfold CategorizedItemID.uncategorized
      rw [land_low_bits]
      omega
  · intro x c hx hcat
    have hmask := land_top_nibble x hx
    have hmod : x % 2 ^ 28 < 2 ^ 28 := Nat.mod_lt _ (by norm_num)
    unfold CategorizedItemID.category at hcat
    unfold UncategorizedItemID.categorize CategorizedItemID.uncategorized
    rw [land_low_bits, lor_shift28 _ _ hmod]
    split_ifs at hcat with h1 h2 h3 h4 h5 h6 <;>
      simp only [Option.some.injEq] at hcat <;>
      try subst hcat
    · rw [hmask] at h1; simp only [ItemCategory.toU8]; omega
    · rw [hmask] at h2; simp only [ItemCategory.toU8]; omega
    · rw [hmask] at h3; simp only [ItemCategory.toU8]; omega
    · rw [hmask] at h4; simp only [ItemCategory.toU8]; omega
    · rw [hmask] at h5; simp only [ItemCategory.toU8]; omega
    · rw [hmask] at h6; simp only [ItemCategory.toU8]; omega

/-- C9: singleton resolution returns NotFound when the address-table lookup
failed, Null when the static pointer slot currently holds a null pointer,
and the live instance otherwise; the slot contents are read afresh on every
call, so two calls under different memory states each reflect their own
slot value. -/
theorem fromStatic_instance_spec :
    (∀ mem : Nat → Nat,
      fromStaticInstance none mem = .error .NotFound) ∧
    (∀ (va : Nat) (mem : Nat → Nat), mem va = 0 →
      fromStaticInstance (some va) mem = .error .Null) ∧
    (∀ (va : Nat) (mem : Nat → Nat), mem va ≠ 0 →
      fromStaticInstance (some va) mem = .ok (mem va)) ∧
    (∀ (va : Nat) (mem₁ mem₂ : Nat → Nat), mem₁ va = 0 → mem₂ va ≠ 0 →
      fromStaticInstance (some va) mem₁ = .error .Null ∧
      fromStaticInstance (some va) mem₂ = .ok (mem₂ va)) := by
  refine ⟨fun mem => rfl, fun va mem h => ?_, fun va mem h => ?_, ?_⟩
  · simp [fromStaticInstance, h]
  · simp [fromStaticInstance, h]
  · intro va mem₁ mem₂ h1 h2
    constructor
    · simp [fromStaticInstance, h1]
    · simp [fromStaticInstance, h2]

theorem fromStatic_instance_spec_witness :
    fromStaticInstance (some 4096) (fun _ => 0) = .error .Null ∧
    fromStaticInstance (some 4096) (fun _ => 7) = .ok 7 :=
  fromStatic_instance_spec.2.2.2 4096 (fun _ => 0) (fun _ => 7) rfl
    (by decide)

theorem maybeInvalid_normalization_witness :
    MaybeInvalidCategorizedItemID.fromU32 0x51111111 =
      MaybeInvalidCategorizedItemID.INVALID :=
  (maybeInvalid_normalization 0x51111111 (by decide)).2.1 (by decide)

theorem categorized_id_roundtrip_witness :
    CategorizedItemID.category (UncategorizedItemID.categorize 12345 ItemCategory.Gem) =
      some ItemCategory.Gem ∧
    UncategorizedItemID.categorize
      (CategorizedItemID.uncategorized 0x80003039) ItemCategory.Gem = 0x80003039 :=
  ⟨(categorized_id_roundtrip.1 ItemCategory.Gem 12345 (by decide)).1,
   categorized_id_roundtrip.2 0x80003039 ItemCategory.Gem (by decide) (by decide)⟩

/-- C2: evaluation of the code at the failing input. The `container` getter
of `FieldInsSelector` is declared over bits `19, 0` while its paired setter
writes bits `27, 20`, so a selector built with container 1 reads container 0
back (it reads the index bits instead). -/
theorem fieldInsSelector_container_bug :
    FieldInsSelector.container (FieldInsSelector.new .Hit 1 0) = 0 ∧
    FieldInsSelector.index (FieldInsSelector.new .Hit 1 5) = 5 ∧
    FieldInsSelector.field_ins_type (FieldInsSelector.new .Hit 1 5) = some .Hit ∧
    FieldInsSelector.container (FieldInsSelector.new .Hit 1 5) = 5 := by
  decide

theorem fieldInsSelector_new_eq (t : FieldInsType) (c i : Nat) :
    FieldInsSelector.new t c i =
      i % 2 ^ 20 + c % 2 ^ 8 * 2 ^ 20 + t.toU8 % 2 ^ 4 * 2 ^ 28 := by
  unfold FieldInsSelector.new FieldInsSelector.set_index
    FieldInsSelector.set_container FieldInsSelector.set_type_raw bitsSet
  have ht : t.toU8 % 2 ^ 4 = t.toU8 := by cases t <;> decide
  rw [ht]
  simp only [Nat.shiftRight_eq_div_pow, Nat.shiftLeft_eq]
  cases t <;> simp only [FieldInsType.toU8] <;> omega

/-- C10: ItemBuffer::remove yields nothing (panics) exactly when the index is
at least the length; otherwise it returns the entry previously at the index,
shrinks the buffer by one, leaves all earlier entries unchanged, and shifts
every later entry one slot toward the front. -/
theorem itemBuffer_remove_spec (b : ItemBuffer) (index : Nat) :
    (b.remove index = none ↔ index ≥ b.length) ∧
    (∀ (e : ItemBufferEntry) (b' : ItemBuffer), b.remove index = some (e, b') →
      e = b.items.getD index default ∧
      b'.length = b.length - 1 ∧
      (∀ j, j < index → b'.items.getD j default = b.items.getD j default) ∧
      (∀ j, index ≤ j → j < b.length - 1 →
        b'.items.getD j default = b.items.getD (j + 1) default)) := by
  constructor
  · unfold ItemBuffer.remove
    by_cases h : index ≥ b.length <;> simp [h]
  · intro e b' hr
    unfold ItemBuffer.remove at hr
    by_cases h : index ≥ b.length
    · rw [if_pos h] at hr
      exact absurd hr (by simp)
    · rw [if_neg h] at hr
      simp only [Option.some.injEq, Prod.mk.injEq] at hr
      obtain ⟨he, hb'⟩ := hr
      subst he
      subst hb'
      have hlen : index < b.items.length := by
        unfold ItemBuffer.length at h
        omega
      have htake : (b.items.take index).length = index := by
        simp only [List.length_take]
        omega
      refine ⟨rfl, ?_, ?_, ?_⟩
      · unfold ItemBuffer.length
        simp only [List.length_append, List.length_take, List.length_drop]
        omega
      · intro j hj
        simp only [List.getD_eq_getElem?_getD]
        rw [List.getElem?_append_left (by omega), List.getElem?_take_of_lt hj]
      · intro j hij hjr
        simp only [List.getD_eq_getElem?_getD]
        rw [List.getElem?_append_right (by omega), htake, List.getElem?_drop]
        have harith : index + 1 + (j - index) = j + 1 := by omega
        rw [harith]

theorem itemBuffer_remove_spec_witness :
    ItemBuffer.length ⟨[⟨10, 1, -1⟩, ⟨30, 3, -1⟩]⟩ =
      ItemBuffer.length ⟨[⟨10, 1, -1⟩, ⟨20, 2, -1⟩, ⟨30, 3, -1⟩]⟩ - 1 :=
  ((itemBuffer_remove_spec ⟨[⟨10, 1, -1⟩, ⟨20, 2, -1⟩, ⟨30, 3, -1⟩]⟩ 1).2
    ⟨20, 2, -1⟩ ⟨[⟨10, 1, -1⟩, ⟨30, 3, -1⟩]⟩ (by decide)).2.1

theorem itemsIterNext_cons_empty (e : EquipInventoryDataListEntry)
    (rest : List EquipInventoryDataListEntry) (he : e.is_empty = true) :
    ItemsIterator.next (e :: rest) = ItemsIterator.next rest := by
  rw [ItemsIterator.next]
  simp [EquipInventoryDataListEntry.as_non_empty, he]

theorem itemsIterNext_cons_occupied (e : EquipInventoryDataListEntry)
    (rest : List EquipInventoryDataListEntry) (he : e.is_empty = false) :
    ItemsIterator.next (e :: rest) = some (e, rest) := by
  rw [ItemsIterator.next]
  simp [EquipInventoryDataListEntry.as_non_empty, he]

theorem toList_next_none (l : List EquipInventoryDataListEntry)
    (h : ItemsIterator.next l = none) : ItemsIterator.toList l = [] := by
  conv_lhs => unfold ItemsIterator.toList
  split <;> simp_all

theorem toList_next_some (l : List EquipInventoryDataListEntry)
    (p : EquipInventoryDataListEntry × List EquipInventoryDataListEntry)
    (h : ItemsIterator.next l = some p) :
    ItemsIterator.toList l = p.1 :: ItemsIterator.toList p.2 := by
  conv_lhs => unfold ItemsIterator.toList
  split
  · simp_all
  · rename_i p1 heq
    rw [h] at heq
    cases heq
    rfl

theorem toList_cons_empty (e : EquipInventoryDataListEntry)
    (rest : List EquipInventoryDataListEntry) (he : e.is_empty = true) :
    ItemsIterator.toList (e :: rest) = ItemsIterator.toList rest := by
  cases hn : ItemsIterator.next rest with
  | none =>
    rw [toList_next_none rest hn,
      toList_next_none (e :: rest) (by rw [itemsIterNext_cons_empty e rest he, hn])]
  | some p =>
    rw [toList_next_some rest p hn,
      toList_next_some (e :: rest) p (by rw [itemsIterNext_cons_empty e rest he, hn])]

theorem toList_cons_occupied (e : EquipInventoryDataListEntry)
    (rest : List EquipInventoryDataListEntry) (he : e.is_empty = false) :
    ItemsIterator.toList (e :: rest) = e :: ItemsIterator.toList rest :=
  toList_next_some (e :: rest) (e, rest) (itemsIterNext_cons_occupied e rest he)

/-- C8: the non-empty-entry iterator yields exactly the entries whose
emptiness predicate is false, in slot order, and yields nothing for an
all-empty pool. -/
theorem items_iterator_yields_non_empty :
    (∀ l : List EquipInventoryDataListEntry,
      ItemsIterator.toList l = l.filter (fun e => !e.is_empty)) ∧
    (∀ d : InventoryItemsData,
      d.items = (d.key_entries ++ d.normal_entries).filter (fun e => !e.is_empty)) ∧
    (∀ l : List EquipInventoryDataListEntry,
      (∀ e ∈ l, e.is_empty = true) → ItemsIterator.toList l = []) := by
  have hfilter : ∀ l : List EquipInventoryDataListEntry,
      ItemsIterator.toList l = l.filter (fun e => !e.is_empty) := by
    intro l
    induction l with
    | nil => rw [toList_next_none [] rfl, List.filter_nil]
    | cons e rest ih =>
      by_cases he : e.is_empty
      · rw [toList_cons_empty e rest he, ih, List.filter_cons]
        simp [he]
      · rw [toList_cons_occupied e rest (by simpa using he), ih, List.filter_cons]
        simp [he]
  refine ⟨hfilter, fun d => hfilter _, fun l hall => ?_⟩
  rw [hfilter l]
  simp only [List.filter_eq_nil_iff]
  intro e hel
  simp [hall e hel]

theorem items_iterator_yields_non_empty_witness :
    ItemsIterator.toList
      [⟨0, 0xFFFFFFFF, 0⟩, ⟨0, 0xFFFFFFFF, 0⟩, ⟨2, 0x40000002, 1⟩,
       ⟨0, 0xFFFFFFFF, 0⟩, ⟨0, 0xFFFFFFFF, 0⟩, ⟨5, 0x40000005, 1⟩,
       ⟨0, 0xFFFFFFFF, 0⟩, ⟨7, 0x40000007, 1⟩] =
      [⟨2, 0x40000002, 1⟩, ⟨5, 0x40000005, 1⟩, ⟨7, 0x40000007, 1⟩] ∧
    ItemsIterator.toList [⟨0, 0xFFFFFFFF, 0⟩, ⟨0, 0xFFFFFFFF, 0⟩] = [] :=
  ⟨(items_iterator_yields_non_empty.1 _).trans (by decide),
   items_iterator_yields_non_empty.2.2 _ (by decide)⟩

/-- C4: the placeholder-save classifier holds exactly at a normal-item count
of 12, and a no-payload load (magic header absent) with a successful native
deserialize is delivered as MainMenu exactly when the classifier holds, and
as NoSavedData otherwise. -/
theorem is_main_menu_classification :
    (∀ g : EquipGameData, g.is_main_menu = true ↔
      g.equip_inventory_data.items_data.normal_items_count = 12) ∧
    (∀ env : LoadEnv,
      (env.stream.data.drop env.stream.pos).take headerBytes.length ≠ headerBytes →
      env.nativeRet ≠ 0 →
      onLoadHook env =
        some ⟨[if env.this.equip_inventory_data.items_data.normal_items_count = 12
            then OnLoadType.MainMenu else OnLoadType.NoSavedData],
          env.stream.pos, 1⟩) := by
  constructor
  · intro g
    simp [EquipGameData.is_main_menu]
  · intro env hhdr hret
    unfold onLoadHook
    simp only [DLMemoryInputStream.readBytes]
    have hfalse :
        ((env.stream.data.drop env.stream.pos).take headerBytes.length ==
          headerBytes) = false := by
      simp [hhdr]
    rw [hfalse]
    simp only [Bool.and_false, Bool.false_eq_true, if_false]
    rw [if_neg hret]
    by_cases hc : env.this.equip_inventory_data.items_data.normal_items_count = 12 <;>
      simp [EquipGameData.is_main_menu, hc]

theorem is_main_menu_classification_witness :
    onLoadHook ⟨⟨⟨⟨12, [], []⟩⟩⟩, ⟨[7], 0⟩, 3⟩ =
      some ⟨[OnLoadType.MainMenu], 0, 1⟩ ∧
    onLoadHook ⟨⟨⟨⟨13, [], []⟩⟩⟩, ⟨[7], 0⟩, 3⟩ =
      some ⟨[OnLoadType.NoSavedData], 0, 1⟩ ∧
    onLoadHook ⟨⟨⟨⟨0, [], []⟩⟩⟩, ⟨[7], 0⟩, 3⟩ =
      some ⟨[OnLoadType.NoSavedData], 0, 1⟩ :=
  ⟨(is_main_menu_classification.2 ⟨⟨⟨⟨12, [], []⟩⟩⟩, ⟨[7], 0⟩, 3⟩
      (by decide) (by decide)).trans (by decide),
   (is_main_menu_classification.2 ⟨⟨⟨⟨13, [], []⟩⟩⟩, ⟨[7], 0⟩, 3⟩
      (by decide) (by decide)).trans (by decide),
   (is_main_menu_classification.2 ⟨⟨⟨⟨0, [], []⟩⟩⟩, ⟨[7], 0⟩, 3⟩
      (by decide) (by decide)).trans (by decide)⟩

/-- C1 counterexample: at a concrete non-placeholder save whose stream
reports 0 bytes for the delimited write (payload length 1, so the report
differs from 1 + 4), the hook does NOT invoke the native serializer — it
returns 1 immediately, contradicting the claim that the native serializer is
still invoked afterward. -/
theorem onSave_short_write_counterexample :
    EquipGameData.is_main_menu ⟨⟨⟨0, [], []⟩⟩⟩ = false ∧
    (0 : Nat) ≠ 1 + 4 ∧
    (onSaveHook ⟨⟨⟨⟨0, [], []⟩⟩⟩, some [104], fun _ => 0, [9], 7⟩).calledOriginal
      = false := by
  refine ⟨by decide, by decide, ?_⟩
  rfl

/-- C1 amended: on a non-placeholder save whose callback returns a payload,
if the stream reports a byte count other than payload length + 4 for the
delimited block, the hook returns 1 immediately without invoking the native
serializer, leaving only the header and the delimited block in the stream. -/
theorem onSave_short_write_skips_native (env : SaveEnv) (payload : List Nat)
    (hm : env.this.is_main_menu = false)
    (hc : env.callbackResult = some payload)
    (hw : env.reportedWrite payload.length ≠ payload.length + 4) :
    onSaveHook env =
      ⟨headerBytes ++ le32 payload.length ++ payload, 1, false⟩ := by
  unfold onSaveHook
  rw [hm, hc]
  simp only []
  rw [if_pos hw]

theorem onSave_short_write_skips_native_witness :
    onSaveHook ⟨⟨⟨⟨0, [], []⟩⟩⟩, some [104, 105], fun _ => 3, [9], 7⟩ =
      ⟨headerBytes ++ le32 2 ++ [104, 105], 1, false⟩ :=
  onSave_short_write_skips_native _ [104, 105] (by decide) rfl (by decide)

theorem headerBytes_length : headerBytes.length = 15 := by decide

theorem de32_le32 (n : Nat) (hn : n < 2 ^ 32) : de32 (le32 n) = n := by
  simp only [le32, de32]
  omega

theorem le32_length (n : Nat) : (le32 n).length = 4 := by
  simp [le32]

/-- C3: a save with a payload against a non-placeholder context produces
magic header, length prefix, payload, then the native bytes; loading that
stream delivers SavedData(payload) and positions the stream immediately
after the payload block (header 15 + prefix 4 + payload) for the native
deserializer; when the stream does not begin with the magic header, the
native deserializer runs at the position before the header read. -/
theorem save_load_roundtrip :
    (∀ (g : EquipGameData) (payload native : List Nat) (ret : Nat),
      g.is_main_menu = false →
      onSaveHook ⟨g, some payload, fun n => n + 4, native, ret⟩ =
        ⟨headerBytes ++ le32 payload.length ++ payload ++ native, ret, true⟩) ∧
    (∀ (g : EquipGameData) (payload native : List Nat) (ret : Nat),
      payload.length < 2 ^ 32 → ret ≠ 0 →
      onLoadHook ⟨g, ⟨headerBytes ++ le32 payload.length ++ payload ++ native, 0⟩, ret⟩ =
        some ⟨[OnLoadType.SavedData payload], 19 + payload.length, 1⟩) ∧
    (∀ env : LoadEnv,
      (env.stream.data.drop env.stream.pos).take headerBytes.length ≠ headerBytes →
      (onLoadHook env).map LoadOutcome.posAtOriginal = some env.stream.pos) := by
  refine ⟨?_, ?_, ?_⟩
  · intro g payload native ret hg
    unfold onSaveHook
    rw [hg]
    simp only []
    rw [if_neg (by simp)]
  · intro g payload native ret hlen hret
    have hgroup : headerBytes ++ le32 payload.length ++ payload ++ native =
        headerBytes ++ (le32 payload.length ++ (payload ++ native)) := by
      simp [List.append_assoc]
    unfold onLoadHook
    simp only [DLMemoryInputStream.readBytes, List.drop_zero]
    rw [hgroup, List.take_left]
    simp only [beq_self_eq_true, Bool.and_self, if_true]
    unfold DLMemoryInputStream.read_delimited DLMemoryInputStream.readBytes
    simp only [Nat.zero_add]
    rw [List.drop_left]
    rw [List.take_left' (le32_length payload.length)]
    rw [if_pos (le32_length payload.length)]
    rw [de32_le32 payload.length hlen]
    simp only [le32_length]
    have hdrop2 : (headerBytes ++ (le32 payload.length ++ (payload ++ native))).drop
        (headerBytes.length + 4) = payload ++ native := by
      rw [show headerBytes ++ (le32 payload.length ++ (payload ++ native)) =
        (headerBytes ++ le32 payload.length) ++ (payload ++ native) from by
          simp [List.append_assoc]]
      exact List.drop_left' (by simp [headerBytes_length, le32_length])
    rw [hdrop2, List.take_left]
    rw [if_pos rfl]
    simp only [if_neg hret]
    simp [headerBytes_length]
  · intro env hhdr
    unfold onLoadHook
    simp only [DLMemoryInputStream.readBytes]
    have hfalse :
        ((env.stream.data.drop env.stream.pos).take headerBytes.length ==
          headerBytes) = false := by
      simp [hhdr]
    rw [hfalse]
    simp only [Bool.and_false, Bool.false_eq_true, if_false]
    by_cases hr : env.nativeRet = 0 <;> simp [hr]

theorem save_load_roundtrip_witness :
    onSaveHook ⟨⟨⟨⟨0, [], []⟩⟩⟩, some [104, 101, 108, 108, 111],
        fun n => n + 4, [1, 2], 6⟩ =
      ⟨headerBytes ++ le32 5 ++ [104, 101, 108, 108, 111] ++ [1, 2], 6, true⟩ ∧
    onLoadHook ⟨⟨⟨⟨0, [], []⟩⟩⟩,
        ⟨headerBytes ++ le32 5 ++ [104, 101, 108, 108, 111] ++ [1, 2], 0⟩, 6⟩ =
      some ⟨[OnLoadType.SavedData [104, 101, 108, 108, 111]], 24, 1⟩ ∧
    (onLoadHook ⟨⟨⟨⟨0, [], []⟩⟩⟩, ⟨[0, 1, 2, 3], 0⟩, 6⟩).map
        LoadOutcome.posAtOriginal = some 0 :=
  ⟨save_load_roundtrip.1 ⟨⟨⟨0, [], []⟩⟩⟩ [104, 101, 108, 108, 111] [1, 2] 6
      (by decide),
   save_load_roundtrip.2.1 ⟨⟨⟨0, [], []⟩⟩⟩ [104, 101, 108, 108, 111] [1, 2] 6
      (by decide) (by decide),
   save_load_roundtrip.2.2 ⟨⟨⟨⟨0, [], []⟩⟩⟩, ⟨[0, 1, 2, 3], 0⟩, 6⟩ (by decide)⟩

theorem binarySearchById_sound (infos : List ParamRowInfo) (key : Nat) :
    ∀ (n left right m : Nat), right - left ≤ n → right ≤ infos.length →
      binarySearchById infos key left right = some m →
      left ≤ m ∧ m < right ∧ (infos.getD m default).id = key := by
  intro n
  induction n with
  | zero =>
    intro left right m hn hr h
    unfold binarySearchById at h
    rw [dif_neg (by omega)] at h
    exact absurd h (by simp)
  | succ n ih =>
    intro left right m hn hr h
    unfold binarySearchById at h
    by_cases hlr : left < right
    · rw [dif_pos hlr] at h
      by_cases h1 : (infos.getD (left + (right - left) / 2) default).id < key
      · rw [if_pos h1] at h
        have hres := ih (left + (right - left) / 2 + 1) right m (by omega) hr h
        exact ⟨by omega, hres.2.1, hres.2.2⟩
      · rw [if_neg h1] at h
        by_cases h2 : key < (infos.getD (left + (right - left) / 2) default).id
        · rw [if_pos h2] at h
          have hres := ih left (left + (right - left) / 2) m (by omega) (by omega) h
          exact ⟨hres.1, by omega, hres.2.2⟩
        · rw [if_neg h2] at h
          simp only [Option.some.injEq] at h
          subst h
          exact ⟨by omega, by omega, by omega⟩
    · rw [dif_neg hlr] at h
      exact absurd h (by simp)

theorem binarySearchById_complete (infos : List ParamRowInfo) (key : Nat)
    (hs : ∀ i j, i < j → j < infos.length →
      (infos.getD i default).id < (infos.getD j default).id) :
    ∀ (n left right j : Nat), right - left ≤ n → right ≤ infos.length →
      left ≤ j → j < right → (infos.getD j default).id = key →
      binarySearchById infos key left right ≠ none := by
  intro n
  induction n with
  | zero =>
    intro left right j hn hr hlj hjr hj
    exfalso
    omega
  | succ n ih =>
    intro left right j hn hr hlj hjr hj
    unfold binarySearchById
    have hlr : left < right := by omega
    rw [dif_pos hlr]
    by_cases h1 : (infos.getD (left + (right - left) / 2) default).id < key
    · rw [if_pos h1]
      refine ih (left + (right - left) / 2 + 1) right j (by omega) hr ?_ hjr hj
      by_contra hc
      push_neg at hc
      rcases Nat.lt_or_ge j (left + (right - left) / 2) with hjm | hjm
      · have := hs j (left + (right - left) / 2) hjm (by omega)
        omega
      · have hjeq : j = left + (right - left) / 2 := by omega
        rw [hjeq] at hj
        omega
    · rw [if_neg h1]
      by_cases h2 : key < (infos.getD (left + (right - left) / 2) default).id
      · rw [if_pos h2]
        refine ih left (left + (right - left) / 2) j (by omega) (by omega) hlj ?_ hj
        by_contra hc
        push_neg at hc
        rcases Nat.lt_or_ge (left + (right - left) / 2) j with hmj | hmj
        · have := hs (left + (right - left) / 2) j hmj (by omega)
          omega
        · have hjeq : j = left + (right - left) / 2 := by omega
          rw [hjeq] at hj
          omega
      · rw [if_neg h2]
        simp

/-- C7: over a row directory sorted strictly ascending by ID, Parameter::get
returns the row stored at the matching directory entry's offset for every
present ID, returns none for every absent ID, and returns none on an empty
directory. -/
theorem parameter_get_spec (p : Parameter)
    (hs : List.Pairwise (fun a b => a.id < b.id) p.row_info) :
    (∀ j, j < p.row_info.length →
      p.get (p.row_info.getD j default).id =
        some (p.rowAt (p.row_info.getD j default).offset)) ∧
    (∀ rid, (∀ j, j < p.row_info.length → (p.row_info.getD j default).id ≠ rid) →
      p.get rid = none) ∧
    (p.row_info = [] → ∀ rid, p.get rid = none) := by
  have hgetD : ∀ (i : Nat) (h : i < p.row_info.length),
      p.row_info.getD i default = p.row_info.get ⟨i, h⟩ := by
    intro i h
    simp [List.getD_eq_getElem?_getD, List.getElem?_eq_getElem h]
  have hsort : ∀ i j, i < j → j < p.row_info.length →
      (p.row_info.getD i default).id < (p.row_info.getD j default).id := by
    intro i j hij hj
    have hi : i < p.row_info.length := by omega
    rw [hgetD i hi, hgetD j hj]
    exact List.pairwise_iff_getElem.mp hs i j hi hj hij
  have habsent : ∀ rid,
      (∀ j, j < p.row_info.length → (p.row_info.getD j default).id ≠ rid) →
      p.get rid = none := by
    intro rid habs
    unfold Parameter.get Parameter.ptr_for_id
    cases hb : binarySearchById p.row_info rid 0 p.row_info.length with
    | none => rfl
    | some m =>
      have hm := binarySearchById_sound p.row_info rid p.row_info.length 0
        p.row_info.length m (by omega) (Nat.le_refl _) hb
      exact absurd hm.2.2 (habs m hm.2.1)
  refine ⟨?_, habsent, fun hempty rid => habsent rid ?_⟩
  · intro j hj
    have hne := binarySearchById_complete p.row_info
      (p.row_info.getD j default).id hsort p.row_info.length 0
      p.row_info.length j (by omega) (Nat.le_refl _) (by omega) hj rfl
    cases hb : binarySearchById p.row_info (p.row_info.getD j default).id 0
        p.row_info.length with
    | none => exact absurd hb hne
    | some m =>
      have hm := binarySearchById_sound p.row_info
        (p.row_info.getD j default).id p.row_info.length 0
        p.row_info.length m (by omega) (Nat.le_refl _) hb
      have hmj : m = j := by
        rcases Nat.lt_trichotomy m j with hlt | heq | hgt
        · have := hsort m j hlt hj
          omega
        · exact heq
        · have := hsort j m hgt hm.2.1
          omega
      subst hmj
      unfold Parameter.get Parameter.ptr_for_id
      rw [hb]
      rfl
  · intro j hj
    rw [hempty] at hj
    simp at hj

theorem parameter_get_spec_witness :
    Parameter.get ⟨[⟨1, 100⟩, ⟨5, 200⟩, ⟨9, 300⟩], fun o => o + 1⟩ 5 = some 201 ∧
    Parameter.get ⟨[⟨1, 100⟩, ⟨5, 200⟩, ⟨9, 300⟩], fun o => o + 1⟩ 3 = none ∧
    Parameter.get ⟨[⟨1, 100⟩, ⟨5, 200⟩, ⟨9, 300⟩], fun o => o + 1⟩ 0 = none ∧
    Parameter.get ⟨[⟨1, 100⟩, ⟨5, 200⟩, ⟨9, 300⟩], fun o => o + 1⟩ 99 = none ∧
    Parameter.get ⟨([] : List ParamRowInfo), fun o => o⟩ 5 = none :=
  ⟨(parameter_get_spec ⟨[⟨1, 100⟩, ⟨5, 200⟩, ⟨9, 300⟩], fun o => o + 1⟩
      (by decide)).1 1 (by decide),
   (parameter_get_spec ⟨[⟨1, 100⟩, ⟨5, 200⟩, ⟨9, 300⟩], fun o => o + 1⟩
      (by decide)).2.1 3 (by decide),
   (parameter_get_spec ⟨[⟨1, 100⟩, ⟨5, 200⟩, ⟨9, 300⟩], fun o => o + 1⟩
      (by decide)).2.1 0 (by decide),
   (parameter_get_spec ⟨[⟨1, 100⟩, ⟨5, 200⟩, ⟨9, 300⟩], fun o => o + 1⟩
      (by decide)).2.1 99 (by decide),
   (parameter_get_spec ⟨([] : List ParamRowInfo), fun o => o⟩
      (by decide)).2.2 rfl 5⟩
